import Mathlib

/-!
# Astrodynamics & Photometry Sampling Core — verification

Shallow embedding of the numerical core of the repository
(`src/services/physics.ts`) over the real numbers:

* `calculateOrbitPath` — samples a Keplerian ellipse given orbital elements
  and rotates it into the heliocentric ecliptic frame, then remaps to the
  visualization frame (scale 10, axes swapped, one negated).
* `simulateLightCurve` — synthesizes a 200-sample transit light curve over
  two periods, with a box-plus-V transit window and injected jitter.

JavaScript's global `Math.random()` is modelled as an explicit stream
`rand : ℕ → ℝ` indexed by the loop counter; theorems that bound the jitter
assume `0 ≤ rand n ≤ 1`, the range of `Math.random()`.  JavaScript's `%`
on reals (`a % b = a - b * trunc (a / b)`) is embedded as `jmod`.
-/

noncomputable section

open Real

/-- Orbital elements record (`src/unnamed/part_000`, interface
`OrbitalElements`); only the five fields the sampler reads are kept. -/
structure OrbitalElements where
  a : ℝ
  e : ℝ
  i : ℝ
  om : ℝ
  w : ℝ

/-- Degrees-to-radians factor, `const d2r = Math.PI / 180`. -/
def d2r : ℝ := Real.pi / 180

/-- The synthetic eccentric anomaly of step `j`:
`const E = (j / points) * 2 * Math.PI`. -/
def orbitE (points j : ℕ) : ℝ := ((j : ℝ) / (points : ℝ)) * 2 * Real.pi

/-- The argument of the square root in `Q`: `1 - e * e`. -/
def sqrtArg (e : ℝ) : ℝ := 1 - e * e

/-- Perifocal coordinate `P = a * (Math.cos(E) - e)`. -/
def perifocalP (a e E : ℝ) : ℝ := a * (Real.cos E - e)

/-- Perifocal coordinate `Q = a * Math.sqrt(1 - e * e) * Math.sin(E)`. -/
def perifocalQ (a e E : ℝ) : ℝ := a * Real.sqrt (sqrtArg e) * Real.sin E

/-- The hand-expanded `x` expression of the rotation in `calculateOrbitPath`. -/
def handX (wRad omRad iRad P Q : ℝ) : ℝ :=
  (Real.cos wRad * Real.cos omRad - Real.sin wRad * Real.sin omRad * Real.cos iRad) * P +
  (-Real.sin wRad * Real.cos omRad - Real.cos wRad * Real.sin omRad * Real.cos iRad) * Q

/-- The hand-expanded `y` expression of the rotation in `calculateOrbitPath`. -/
def handY (wRad omRad iRad P Q : ℝ) : ℝ :=
  (Real.cos wRad * Real.sin omRad + Real.sin wRad * Real.cos omRad * Real.cos iRad) * P +
  (-Real.sin wRad * Real.sin omRad + Real.cos wRad * Real.cos omRad * Real.cos iRad) * Q

/-- The hand-expanded `z` expression of the rotation in `calculateOrbitPath`. -/
def handZ (wRad omRad iRad P Q : ℝ) : ℝ :=
  (Real.sin wRad * Real.sin iRad) * P + (Real.cos wRad * Real.sin iRad) * Q

/-- Elementary rotation about the pole axis (z) by angle `θ`, acting on a
triple `(x, y, z)`. -/
def rotZ (θ : ℝ) (v : ℝ × ℝ × ℝ) : ℝ × ℝ × ℝ :=
  (Real.cos θ * v.1 - Real.sin θ * v.2.1,
   Real.sin θ * v.1 + Real.cos θ * v.2.1,
   v.2.2)

/-- Elementary rotation about the line-of-nodes axis (x) by angle `θ`. -/
def rotX (θ : ℝ) (v : ℝ × ℝ × ℝ) : ℝ × ℝ × ℝ :=
  (v.1,
   Real.cos θ * v.2.1 - Real.sin θ * v.2.2,
   Real.sin θ * v.2.1 + Real.cos θ * v.2.2)

/-- The body of the `for` loop of `calculateOrbitPath`: the `Point3D`
pushed at step `j`, already remapped to the visualization frame
`(x * 10, z * 10, -y * 10)`. -/
def orbitPoint (el : OrbitalElements) (points j : ℕ) : ℝ × ℝ × ℝ :=
  let iRad := el.i * d2r
  let omRad := el.om * d2r
  let wRad := el.w * d2r
  let E := orbitE points j
  let P := perifocalP el.a el.e E
  let Q := perifocalQ el.a el.e E
  let x := handX wRad omRad iRad P Q
  let y := handY wRad omRad iRad P Q
  let z := handZ wRad omRad iRad P Q
  (x * 10, z * 10, -y * 10)

/-- `calculateOrbitPath` (`src/services/physics.ts`): the loop runs
`j = 0 .. points` inclusive, pushing one point per step. -/
def calculateOrbitPath (el : OrbitalElements) (points : ℕ) : List (ℝ × ℝ × ℝ) :=
  (List.range (points + 1)).map (orbitPoint el points)

/-- JavaScript number truncation toward zero, on reals. -/
def jsTrunc (x : ℝ) : ℤ := if 0 ≤ x then ⌊x⌋ else ⌈x⌉

/-- JavaScript's `%` on reals: `a % b = a - b * trunc (a / b)`. -/
def jmod (a b : ℝ) : ℝ := a - b * (jsTrunc (a / b) : ℝ)

/-- The time of sample `i`: `const time = (i / totalPoints) * totalTime`
with `totalPoints = 200` and `totalTime = period * 2`. -/
def lcTime (period : ℝ) (i : ℕ) : ℝ := ((i : ℝ) / 200) * (period * 2)

/-- The flux of one sample of `simulateLightCurve`, given the jitter draw
`randv` (the value of `Math.random()` for this iteration) and the sample
time `t`.  Mirrors the loop body: flux starts at `1.0`, is overwritten
inside the transit window by `1 - depth` plus the V-shaped correction,
then gets the jitter `(randv - 0.5) * 0.0005` added. -/
def lcFlux (period depth durationDays randv t : ℝ) : ℝ :=
  let timeInPeriod := jmod t period
  let transitCenter := period / 2
  let base :=
    if |timeInPeriod - transitCenter| < durationDays / 2 then
      (1.0 - depth) + (|timeInPeriod - transitCenter| / (durationDays / 2)) * (depth * 0.1)
    else 1.0
  base + (randv - 0.5) * 0.0005

/-- `simulateLightCurve` (`src/services/physics.ts`): 200 samples,
`i = 0 .. 199`, each a `(time, flux)` pair.  The `rand` stream supplies
the `Math.random()` draw of each iteration. -/
def simulateLightCurve (period depth durationHours : ℝ) (rand : ℕ → ℝ) :
    List (ℝ × ℝ) :=
  (List.range 200).map fun i =>
    (lcTime period i, lcFlux period depth (durationHours / 24) (rand i) (lcTime period i))

/-- A concrete orbital-elements record used to witness hypotheses:
`a = 1, e = 0, i = om = w = 0`. -/
def el0 : OrbitalElements := ⟨1, 0, 0, 0, 0⟩

end

/-- C2: for every `OrbitalElements` record and every `pointCount ≥ 1`,
`sampleOrbitPath` returns exactly `pointCount + 1` points. -/
theorem calculateOrbitPath_length (el : OrbitalElements) (points : ℕ)
    (h : 1 ≤ points) :
    (calculateOrbitPath el points).length = points + 1 := by
  simp [calculateOrbitPath]

/-- Witness for C2 at `el0` and `pointCount = 4`. -/
theorem calculateOrbitPath_length_witness :
    (calculateOrbitPath el0 4).length = 4 + 1 :=
  calculateOrbitPath_length el0 4 (by norm_num)

/-- The hand-expanded rotation equals the 3-1-3 Euler composition applied to
the perifocal vector `(P, Q, 0)`.  Shared helper, used both for the
refinement claim and for norm computations. -/
lemma hand_eq_euler (w i om P Q : ℝ) :
    (handX w om i P Q, handY w om i P Q, handZ w om i P Q) =
      rotZ om (rotX i (rotZ w (P, Q, 0))) := by
  simp only [handX, handY, handZ, rotZ, rotX, Prod.mk.injEq]
  refine ⟨by ring, by ring, by ring⟩

/-- C3: for every angle triple `(w, i, om)` and every perifocal pair
`(P, Q)`, the hand-expanded `x, y, z` expressions of `sampleOrbitPath`
equal the 3-1-3 Euler composition — rotate by `w` about the orbital-plane
normal, then by `i` about the line of nodes, then by `om` about the
reference-pole axis — applied to `(P, Q, 0)`. -/
theorem hand_rotation_is_euler313 (w i om P Q : ℝ) :
    (handX w om i P Q, handY w om i P Q, handZ w om i P Q) =
      rotZ om (rotX i (rotZ w (P, Q, 0))) :=
  hand_eq_euler w i om P Q

/-- C4: the first point (`j = 0`, `E = 0`) and the last point
(`j = pointCount`, `E = 2π`) of `sampleOrbitPath` are exactly equal over
the real-valued embedding, since the parametrization is `2π`-periodic. -/
theorem calculateOrbitPath_closed (el : OrbitalElements) (points : ℕ)
    (h : 1 ≤ points) :
    (calculateOrbitPath el points).getD 0 (0, 0, 0) =
      (calculateOrbitPath el points).getD points (0, 0, 0) := by
  have hp0 : points < points + 1 := Nat.lt_succ_self points
  have h00 : 0 < points + 1 := Nat.succ_pos points
  have hE0 : orbitE points 0 = 0 := by
    simp [orbitE]
  have hEn : orbitE points points = 2 * Real.pi := by
    have hne : (points : ℝ) ≠ 0 := by
      exact_mod_cast Nat.one_le_iff_ne_zero.mp h
    field_simp [orbitE]
  have hpt : orbitPoint el points 0 = orbitPoint el points points := by
    simp only [orbitPoint, hE0, hEn, perifocalP, perifocalQ,
      Real.cos_zero, Real.sin_zero, Real.cos_two_pi, Real.sin_two_pi]
  simp [calculateOrbitPath, List.getD_eq_getElem?_getD, List.getElem?_map,
    List.getElem?_range, hp0, h00, hpt]

/-- Witness for C4 at `el0` and `pointCount = 2`. -/
theorem calculateOrbitPath_closed_witness :
    (calculateOrbitPath el0 2).getD 0 (0, 0, 0) =
      (calculateOrbitPath el0 2).getD 2 (0, 0, 0) :=
  calculateOrbitPath_closed el0 2 (by norm_num)

/-- Squared Euclidean norm of a coordinate triple. -/
def nsq (v : ℝ × ℝ × ℝ) : ℝ := v.1 ^ 2 + v.2.1 ^ 2 + v.2.2 ^ 2

/-- `rotZ` preserves the squared norm. -/
lemma nsq_rotZ (θ : ℝ) (v : ℝ × ℝ × ℝ) : nsq (rotZ θ v) = nsq v := by
  simp only [nsq, rotZ]
  linear_combination (v.1 ^ 2 + v.2.1 ^ 2) * Real.sin_sq_add_cos_sq θ

/-- `rotX` preserves the squared norm. -/
lemma nsq_rotX (θ : ℝ) (v : ℝ × ℝ × ℝ) : nsq (rotX θ v) = nsq v := by
  simp only [nsq, rotX]
  linear_combination (v.2.1 ^ 2 + v.2.2 ^ 2) * Real.sin_sq_add_cos_sq θ

/-- The hand-expanded rotation preserves the squared norm of `(P, Q, 0)`. -/
lemma nsq_hand (w i om P Q : ℝ) :
    nsq (handX w om i P Q, handY w om i P Q, handZ w om i P Q) =
      P ^ 2 + Q ^ 2 := by
  rw [hand_eq_euler, nsq_rotZ, nsq_rotX, nsq_rotZ]
  simp [nsq]

/-- C5: for `e = 0`, `a > 0` and `pointCount ≥ 1`, every point returned by
`sampleOrbitPath` lies at Euclidean distance `a · 10` from the origin. -/
theorem calculateOrbitPath_circular_radius (el : OrbitalElements) (points : ℕ)
    (he : el.e = 0) (ha : 0 < el.a) (hp : 1 ≤ points) :
    ∀ p ∈ calculateOrbitPath el points,
      Real.sqrt (p.1 ^ 2 + p.2.1 ^ 2 + p.2.2 ^ 2) = el.a * 10 := by
  intro p hpmem
  rcases List.mem_map.1 hpmem with ⟨j, _, rfl⟩
  set E := orbitE points j with hE
  have hPQ : perifocalP el.a el.e E ^ 2 + perifocalQ el.a el.e E ^ 2
      = el.a ^ 2 := by
    simp only [perifocalP, perifocalQ, he, sqrtArg, mul_zero, sub_zero,
      mul_one, Real.sqrt_one]
    linear_combination el.a ^ 2 * Real.sin_sq_add_cos_sq E
  have hn : nsq (orbitPoint el points j) = el.a ^ 2 * 100 := by
    simp only [orbitPoint, nsq]
    have := nsq_hand (el.w * d2r) (el.i * d2r) (el.om * d2r)
      (perifocalP el.a el.e E) (perifocalQ el.a el.e E)
    simp only [nsq] at this
    nlinarith [this, hPQ]
  have : (orbitPoint el points j).1 ^ 2 + (orbitPoint el points j).2.1 ^ 2 +
      (orbitPoint el points j).2.2 ^ 2 = (el.a * 10) ^ 2 := by
    have h2 : (el.a * 10) ^ 2 = el.a ^ 2 * 100 := by ring
    rw [h2]
    exact hn
  rw [this, Real.sqrt_sq (by positivity)]

/-- Witness for C5: the point of step `j = 0` of the orbit of `el0`
(`a = 1`, `e = 0`, all angles zero) with `pointCount = 1` lies at
distance `1 · 10` from the origin. -/
theorem calculateOrbitPath_circular_radius_witness :
    Real.sqrt ((orbitPoint el0 1 0).1 ^ 2 + (orbitPoint el0 1 0).2.1 ^ 2 +
      (orbitPoint el0 1 0).2.2 ^ 2) = el0.a * 10 :=
  calculateOrbitPath_circular_radius el0 1 rfl (by norm_num [el0])
    (le_refl 1) (orbitPoint el0 1 0)
    (List.mem_map.2 ⟨0, by simp [List.mem_range], rfl⟩)

/-- Sample `i < 200` of the light curve, read through `getD`. -/
lemma simulateLightCurve_getD (p d dh : ℝ) (r : ℕ → ℝ) (i : ℕ) (hi : i < 200) :
    (simulateLightCurve p d dh r).getD i (0, 0) =
      (lcTime p i, lcFlux p d (dh / 24) (r i) (lcTime p i)) := by
  simp [simulateLightCurve, List.getD_eq_getElem?_getD, List.getElem?_map,
    List.getElem?_range, hi]

/-- C1: for every `period > 0`, `simulateTransitLightCurve` returns exactly
200 samples; the `i`-th time is `(i / 200) · 2 · period`, so the times start
at 0, are strictly increasing, and stay strictly below `2 · period`. -/
theorem simulateLightCurve_time_grid (p d dh : ℝ) (r : ℕ → ℝ) (hp : 0 < p) :
    (simulateLightCurve p d dh r).length = 200 ∧
    (∀ i, i < 200 →
      ((simulateLightCurve p d dh r).getD i (0, 0)).1 = ((i : ℝ) / 200) * (2 * p)) ∧
    (∀ i j, i < j → j < 200 →
      ((simulateLightCurve p d dh r).getD i (0, 0)).1 <
        ((simulateLightCurve p d dh r).getD j (0, 0)).1) ∧
    ((simulateLightCurve p d dh r).getD 0 (0, 0)).1 = 0 ∧
    (∀ i, i < 200 →
      ((simulateLightCurve p d dh r).getD i (0, 0)).1 < 2 * p) := by
  have hlen : (simulateLightCurve p d dh r).length = 200 := by
    simp [simulateLightCurve]
  have htime : ∀ i, i < 200 →
      ((simulateLightCurve p d dh r).getD i (0, 0)).1 = ((i : ℝ) / 200) * (2 * p) := by
    intro i hi
    rw [simulateLightCurve_getD p d dh r i hi]
    show lcTime p i = _
    simp only [lcTime]
    ring
  refine ⟨hlen, htime, ?_, ?_, ?_⟩
  · intro i j hij hj
    rw [htime i (hij.trans hj), htime j hj]
    have hcast : (i : ℝ) < (j : ℝ) := by exact_mod_cast hij
    have h2p : (0 : ℝ) < 2 * p := by linarith
    apply mul_lt_mul_of_pos_right _ h2p
    linarith
  · rw [htime 0 (by norm_num)]
    norm_num
  · intro i hi
    rw [htime i hi]
    have hcast : (i : ℝ) < 200 := by exact_mod_cast hi
    have h2p : (0 : ℝ) < 2 * p := by linarith
    have hdiv : (i : ℝ) / 200 < 1 := (div_lt_one (by norm_num)).2 hcast
    calc ((i : ℝ) / 200) * (2 * p) < 1 * (2 * p) :=
          mul_lt_mul_of_pos_right hdiv h2p
      _ = 2 * p := one_mul _

/-- Witness for C1 at `period = 1` (jitter stream identically 0). -/
theorem simulateLightCurve_time_grid_witness :
    (simulateLightCurve 1 0 1 (fun _ => 0)).length = 200 :=
  (simulateLightCurve_time_grid 1 0 1 (fun _ => 0) (by norm_num)).1

/-- The jitter `(randv - 0.5) * 0.0005` is bounded by `0.00025` in absolute
value whenever the draw lies in `[0, 1]` (the range of `Math.random()`). -/
lemma jitter_bound (randv : ℝ) (h0 : 0 ≤ randv) (h1 : randv ≤ 1) :
    |(randv - 0.5) * 0.0005| ≤ 0.00025 := by
  rw [abs_le]
  constructor <;> nlinarith

/-- C6: for `period > 0` and `transitDurationHours > 0`, a sample whose
`timeInPeriod` equals `period / 2` (the transit center) has flux within
`±0.00025` of `1 − depth`: the limb-darkening correction is exactly 0 at
the center and only the bounded jitter remains. -/
theorem lightCurve_center_flux (p d dh : ℝ) (r : ℕ → ℝ)
    (hp : 0 < p) (hdh : 0 < dh) (hr : ∀ n, 0 ≤ r n ∧ r n ≤ 1)
    (i : ℕ) (hi : i < 200)
    (hcenter : jmod (lcTime p i) p = p / 2) :
    |((simulateLightCurve p d dh r).getD i (0, 0)).2 - (1 - d)| ≤ 0.00025 := by
  rw [simulateLightCurve_getD p d dh r i hi]
  show |lcFlux p d (dh / 24) (r i) (lcTime p i) - (1 - d)| ≤ 0.00025
  rw [lcFlux]
  simp only [hcenter, sub_self, abs_zero]
  rw [if_pos (by positivity)]
  rw [zero_div, zero_mul, add_zero]
  have heq : 1.0 - d + (r i - 0.5) * 0.0005 - (1 - d) = (r i - 0.5) * 0.0005 := by
    ring
  rw [heq]
  exact jitter_bound (r i) (hr i).1 (hr i).2

/-- Witness for C6: `period = 1`, `depth = 0.01`, `durationHours = 24`,
zero jitter stream, at sample `i = 50` (time `0.5`, the transit center). -/
theorem lightCurve_center_flux_witness :
    |((simulateLightCurve 1 0.01 24 (fun _ => 0)).getD 50 (0, 0)).2 -
        (1 - 0.01)| ≤ 0.00025 :=
  lightCurve_center_flux 1 0.01 24 (fun _ => 0) (by norm_num) (by norm_num)
    (fun _ => by norm_num) 50 (by norm_num)
    (by
      have h : lcTime 1 50 = 1 / 2 := by
        simp [lcTime]
        norm_num
      rw [h, jmod, jsTrunc]
      norm_num)

/-- C7: for `period > 0` and `transitDurationHours > 0`, a sample lying
outside the transit window (`|timeInPeriod − period/2| ≥ durationDays/2`)
has flux within `±0.00025` of `1.0`. -/
theorem lightCurve_out_of_transit_flux (p d dh : ℝ) (r : ℕ → ℝ)
    (hp : 0 < p) (hdh : 0 < dh) (hr : ∀ n, 0 ≤ r n ∧ r n ≤ 1)
    (i : ℕ) (hi : i < 200)
    (hout : (dh / 24) / 2 ≤ |jmod (lcTime p i) p - p / 2|) :
    |((simulateLightCurve p d dh r).getD i (0, 0)).2 - 1.0| ≤ 0.00025 := by
  rw [simulateLightCurve_getD p d dh r i hi]
  show |lcFlux p d (dh / 24) (r i) (lcTime p i) - 1.0| ≤ 0.00025
  rw [lcFlux]
  rw [if_neg (not_lt.2 hout)]
  have heq : 1.0 + (r i - 0.5) * 0.0005 - 1.0 = (r i - 0.5) * 0.0005 := by
    ring
  rw [heq]
  exact jitter_bound (r i) (hr i).1 (hr i).2

/-- Witness for C7: `period = 1`, `durationHours = 2.4`, sample `i = 0`
(time `0`, half a period away from the transit center). -/
theorem lightCurve_out_of_transit_flux_witness :
    |((simulateLightCurve 1 0.01 2.4 (fun _ => 0)).getD 0 (0, 0)).2 -
        1.0| ≤ 0.00025 :=
  lightCurve_out_of_transit_flux 1 0.01 2.4 (fun _ => 0) (by norm_num)
    (by norm_num) (fun _ => by norm_num) 0 (by norm_num)
    (by
      have h : lcTime 1 0 = 0 := by simp [lcTime]
      rw [h, jmod, jsTrunc]
      norm_num
      rw [abs_of_nonneg (by norm_num)]
      norm_num)

/-- C10: the transit-window test is strict: a sample whose distance from
the transit center is exactly `durationDays / 2` is treated as
out-of-transit and receives flux `1.0` plus the jitter, not the reduced
in-transit flux. -/
theorem lightCurve_boundary_is_out (p d dh : ℝ) (r : ℕ → ℝ)
    (i : ℕ) (hi : i < 200)
    (hbd : |jmod (lcTime p i) p - p / 2| = (dh / 24) / 2) :
    ((simulateLightCurve p d dh r).getD i (0, 0)).2 =
      1.0 + (r i - 0.5) * 0.0005 := by
  rw [simulateLightCurve_getD p d dh r i hi]
  show lcFlux p d (dh / 24) (r i) (lcTime p i) = 1.0 + (r i - 0.5) * 0.0005
  rw [lcFlux]
  rw [hbd, if_neg (lt_irrefl _)]

/-- Witness for C10: `period = 1`, `durationHours = 4.8`
(`durationDays/2 = 0.1`), sample `i = 40` (time `0.4`, exactly `0.1` from
the transit center `0.5`). -/
theorem lightCurve_boundary_is_out_witness :
    ((simulateLightCurve 1 0.01 4.8 (fun _ => 0)).getD 40 (0, 0)).2 =
      1.0 + ((0 : ℝ) - 0.5) * 0.0005 :=
  lightCurve_boundary_is_out 1 0.01 4.8 (fun _ => 0) 40 (by norm_num)
    (by
      have h : lcTime 1 40 = 0.4 := by
        simp [lcTime]
        norm_num
      rw [h, jmod, jsTrunc]
      norm_num)

/-- C9: under `pointCount ≥ 1` and `0 ≤ e < 1`, the arithmetic of
`sampleOrbitPath` is well-defined: the divisor `pointCount` in
`E = (j / pointCount) · 2π` is nonzero and the square-root argument
`1 − e²` is nonnegative; and `pointCount ≥ 1` is necessary, since for
`pointCount = 0` that divisor is the real number `0`. -/
theorem orbitPath_arith_safety (points : ℕ) (e : ℝ)
    (hp : 1 ≤ points) (he0 : 0 ≤ e) (he1 : e < 1) :
    ((points : ℝ) ≠ 0 ∧
     (∀ j : ℕ, orbitE points j = ((j : ℝ) / (points : ℝ)) * 2 * Real.pi) ∧
     0 ≤ sqrtArg e) ∧
    ((0 : ℕ) : ℝ) = 0 := by
  refine ⟨⟨?_, fun j => rfl, ?_⟩, by norm_num⟩
  · exact_mod_cast Nat.one_le_iff_ne_zero.mp hp
  · simp only [sqrtArg]
    nlinarith

/-- Witness for C9 at `pointCount = 4`, `e = 1/2`. -/
theorem orbitPath_arith_safety_witness :
    (((4 : ℕ) : ℝ) ≠ 0 ∧
     (∀ j : ℕ, orbitE 4 j = ((j : ℝ) / ((4 : ℕ) : ℝ)) * 2 * Real.pi) ∧
     0 ≤ sqrtArg (1 / 2)) ∧
    ((0 : ℕ) : ℝ) = 0 :=
  orbitPath_arith_safety 4 (1 / 2) (by norm_num) (by norm_num) (by norm_num)
